import Mathlib

/-!
Verification of the commit-traversal and job-execution harness of
GitHistoryProfiler (`src/main.py`).

The harness is a single sequential Python program whose external effects
(git commands launched through `sh`, shell commands launched through
`os.system`, and wall-clock readings from `time.time()`) are modelled by an
oracle `Env` fixing, for every external invocation, whether it fails and what
it returns.  With the oracle fixed, each method of the Python `Repository`
class becomes a pure Lean function; `sh` commands that fail raise exceptions
in Python, modelled with `Except`, while `os.system` never raises and its
return value is ignored by the code, which the model makes explicit by
recording the exit code in the event trace without inspecting it.

The functions also return a trace of the external events they perform, in
order, which is how the sequencing claims are stated.
-/

namespace GitHistoryProfiler

/-- One entry of `config['jobs']` (`src/main.py` lines 53-62): a display
name and a command path. -/
structure JobSpec where
  name : String
  command : String
deriving DecidableEq

/-- The fields of the YAML configuration the harness reads
(`working_directory`, `init_script`, `jobs`). -/
structure Config where
  working_directory : String
  init_script : String
  jobs : List JobSpec

/-- Oracle for the external world.  Git invocations that can fail are keyed
by the commit being handled when they run; `initExitCode` and `jobExitCode`
are the `os.system` return values (ignored by the code); `revList` is the
output of `git rev-list --all`; `time n` is the value of the n-th call to
`time.time()` made during job execution. -/
structure Env where
  dirExists : Bool
  cloneFails : Bool
  cleanFails : String → Bool
  checkoutFails : String → Bool
  initExitCode : String → Int
  jobExitCode : String → String → Int
  revList : List String
  time : Nat → ℚ

/-- External events performed by the harness, in the order they happen.
`job c n e s t` records running job `n` of commit `c` with exit code `e`,
between the s-th and t-th clock readings. -/
inductive Event where
  | clone : Event
  | clean : String → Event
  | checkout : String → Event
  | build : String → Int → Event
  | job : String → String → Int → Nat → Nat → Event
deriving DecidableEq

/-- The Python exceptions that can escape the run, tagged by the failing
stage and commit. `workingDirExists` is the `FileExistsError` raised by
`os.makedirs` in `Repository.__init__` (line 30); `cloneFailed` is an
`sh.ErrorReturnCode` from `git clone`; the last two are `sh.ErrorReturnCode`
from `git checkout .` and `git checkout <commit>`. -/
inductive RunError where
  | workingDirExists : RunError
  | cloneFailed : RunError
  | cleanFailed : String → RunError
  | checkoutFailed : String → RunError
deriving DecidableEq

/-- Modelled from the spec: the error taxonomy of section 7 groups failures
of "initial repository materialization" (network, auth, disk) into the
CloneFailed class, and the scenario list of section 8 places the
pre-existing-working-directory failure in that class.  The source raises a
bare `FileExistsError` / `sh.ErrorReturnCode` with no class of its own. -/
def RunError.isCloneClass : RunError → Bool
  | .workingDirExists => true
  | .cloneFailed => true
  | _ => false

/-- The `stats` list built by `Repository.execute`: one `(job name,
duration)` pair per job. -/
abbrev JobStats := List (String × ℚ)

/-- The `stats` list built by `Repository.run`: one `(commit, job stats)`
pair per processed commit. -/
abbrev Dataset := List (String × JobStats)

/-- `Repository.execute` (lines 49-63): for each configured job in order,
read the clock, run the job command with `os.system` (its exit code is not
inspected), read the clock again, and record `(name, elapsed)`.  Returns the
stats, the event trace, and the next clock index. -/
def execute (env : Env) (commitId : String) :
    List JobSpec → Nat → JobStats × List Event × Nat
  | [], clk => ([], [], clk)
  | j :: rest, clk =>
    let r := execute env commitId rest (clk + 2)
    ((j.name, env.time (clk + 1) - env.time clk) :: r.1,
     Event.job commitId j.name (env.jobExitCode commitId j.name) clk (clk + 1) :: r.2.1,
     r.2.2)

/-- `Repository.handle_commit` (lines 65-68): `clean()` (`git checkout .`,
raising on failure), then `switch_to_commit` (`git checkout <commit>`,
raising on failure, followed by the init script through `os.system`, whose
exit code is not inspected), then `execute`. -/
def handle_commit (env : Env) (cfg : Config) (commitId : String) (clk : Nat) :
    Except RunError JobStats × List Event × Nat :=
  if env.cleanFails commitId then
    (.error (.cleanFailed commitId), [], clk)
  else if env.checkoutFails commitId then
    (.error (.checkoutFailed commitId), [Event.clean commitId], clk)
  else
    (.ok (execute env commitId cfg.jobs clk).1,
     Event.clean commitId :: Event.checkout commitId ::
       Event.build commitId (env.initExitCode commitId) ::
       (execute env commitId cfg.jobs clk).2.1,
     (execute env commitId cfg.jobs clk).2.2)

/-- `Repository.list_commits` (lines 70-77): the output of
`git rev-list --all`, split on whitespace. -/
def list_commits (env : Env) : List String := env.revList

/-- Line 83, `commits = commits or self.list_commits()`: a non-empty
explicit commit list (the repeated `-c` options) is used verbatim; `None` or
an empty list/tuple falls back to `list_commits`.  Both falsy cases are
encoded as the empty list. -/
def resolveCommits (env : Env) (explicit : List String) : List String :=
  if explicit.isEmpty then list_commits env else explicit

/-- The `for commit in commits` loop of `Repository.run` (lines 85-87): an
exception from `handle_commit` propagates, discarding the accumulated
`stats` list; otherwise `(commit, res)` is appended. -/
def runLoop (env : Env) (cfg : Config) :
    List String → Nat → Except RunError Dataset × List Event × Nat
  | [], clk => (.ok [], [], clk)
  | c :: rest, clk =>
    match handle_commit env cfg c clk with
    | (.error e, tr, clk') => (.error e, tr, clk')
    | (.ok stats, tr, clk') =>
      match runLoop env cfg rest clk' with
      | (.error e, tr', clk'') => (.error e, tr ++ tr', clk'')
      | (.ok ds, tr', clk'') => (.ok ((c, stats) :: ds), tr ++ tr', clk'')

/-- `Repository.run` (lines 79-88): clone (raising on failure), resolve the
commit list, then the loop. -/
def run (env : Env) (cfg : Config) (explicit : List String) :
    Except RunError Dataset × List Event :=
  if env.cloneFails then (.error .cloneFailed, [])
  else
    ((runLoop env cfg (resolveCommits env explicit) 0).1,
     Event.clone :: (runLoop env cfg (resolveCommits env explicit) 0).2.1)

/-- `Repository.__init__` (line 30, `os.makedirs(working_directory)`, which
raises `FileExistsError` when the directory already exists) followed by
`repo.run` as in `main` (lines 123-125). -/
def repositoryMain (env : Env) (cfg : Config) (explicit : List String) :
    Except RunError Dataset × List Event :=
  if env.dirExists then (.error .workingDirExists, [])
  else run env cfg explicit

/-- The data transformation of `Repository.plot` (lines 92-96): one row
`(commit[:5], job name, duration)` per job result, in dataset order. -/
def plot_transform : Dataset → List (String × String × ℚ)
  | [] => []
  | (commit, jobs) :: rest =>
    jobs.map (fun p => (commit.take 5, p.1, p.2)) ++ plot_transform rest

/-! Trace characterizations used to state the sequencing claims: the exact
event sequence a failure-free run performs. -/

/-- The job events of one commit, in `Config.jobs` order, with consecutive
clock indices. -/
def jobsTrace (env : Env) (commitId : String) : List JobSpec → Nat → List Event
  | [], _ => []
  | j :: rest, clk =>
    Event.job commitId j.name (env.jobExitCode commitId j.name) clk (clk + 1) ::
      jobsTrace env commitId rest (clk + 2)

/-- The events of one successfully handled commit: clean, checkout, build,
then its jobs. -/
def commitTrace (env : Env) (cfg : Config) (commitId : String) (clk : Nat) : List Event :=
  Event.clean commitId :: Event.checkout commitId ::
    Event.build commitId (env.initExitCode commitId) ::
    jobsTrace env commitId cfg.jobs clk

/-- The events of a failure-free loop over a commit list: each commit's
block in list order, with clock indices advancing past the previous
commit's readings. -/
def scheduleTrace (env : Env) (cfg : Config) : List String → Nat → List Event
  | [], _ => []
  | c :: rest, clk =>
    commitTrace env cfg c clk ++ scheduleTrace env cfg rest (clk + 2 * cfg.jobs.length)

/-! A spec-modelled working-tree state for the `clean()` claim. -/

/-- Modelled from the spec: the working-tree state acted on by the external
version-control collaborator, which is not part of this repository.  Section
4.1 describes `clean()` (`git checkout .`, `Repository.clean`, lines 35-37)
as "discards any uncommitted modifications in the working tree (equivalent
to a hard reset of tracked files)": tracked files are restored to their
committed content, untracked files are untouched. -/
structure WorkingTree where
  headFiles : List (String × String)
  trackedFiles : List (String × String)
  untrackedFiles : List (String × String)
deriving DecidableEq

/-- `Repository.clean` (lines 35-37), `git checkout .`, on the spec-modelled
working tree: restore every tracked file to its committed content. -/
def clean (t : WorkingTree) : WorkingTree :=
  { t with trackedFiles := t.headFiles }

/-- A tree is clean when its tracked files already hold their committed
content. -/
def WorkingTree.isClean (t : WorkingTree) : Prop :=
  t.trackedFiles = t.headFiles

/-! Concrete oracles and configuration used by witnesses and
counterexamples. -/

/-- A one-job configuration. -/
def cfg0 : Config :=
  { working_directory := "wd", init_script := "init.sh",
    jobs := [⟨"j1", "job1.sh"⟩] }

/-- A fully well-behaved world: nothing fails, every command exits 0, the
clock always reads 0. -/
def env0 : Env :=
  { dirExists := false, cloneFails := false,
    cleanFails := fun _ => false, checkoutFails := fun _ => false,
    initExitCode := fun _ => 0, jobExitCode := fun _ _ => 0,
    revList := [], time := fun _ => 0 }

/-- As `env0`, but the init script and every job exit with code 1. -/
def env1 : Env :=
  { env0 with initExitCode := fun _ => 1, jobExitCode := fun _ _ => 1 }

/-- As `env0`, but `git checkout c2` fails. -/
def env2 : Env :=
  { env0 with checkoutFails := fun c => c == "c2" }

/-- As `env0`, but the working directory already exists. -/
def env3 : Env :=
  { env0 with dirExists := true }

/-! Helper lemmas about `execute` and `runLoop`. -/

theorem execute_stats_names (env : Env) (c : String) (jobs : List JobSpec) (clk : Nat) :
    ((execute env c jobs clk).1).map Prod.fst = jobs.map JobSpec.name := by
  induction jobs generalizing clk with
  | nil => rfl
  | cons j rest ih => simp [execute, ih]

theorem execute_trace (env : Env) (c : String) (jobs : List JobSpec) (clk : Nat) :
    (execute env c jobs clk).2.1 = jobsTrace env c jobs clk := by
  induction jobs generalizing clk with
  | nil => rfl
  | cons j rest ih => simp [execute, jobsTrace, ih]

theorem execute_clk (env : Env) (c : String) (jobs : List JobSpec) (clk : Nat) :
    (execute env c jobs clk).2.2 = clk + 2 * jobs.length := by
  induction jobs generalizing clk with
  | nil => simp [execute]
  | cons j rest ih => simp [execute, ih, List.length_cons]; ring

theorem execute_stats_ignore_env (env env' : Env) (c : String) (jobs : List JobSpec)
    (clk : Nat) (ht : env.time = env'.time) :
    (execute env c jobs clk).1 = (execute env' c jobs clk).1 := by
  induction jobs generalizing clk with
  | nil => rfl
  | cons j rest ih => simp [execute, ih, ht]

theorem execute_dur_nonneg (env : Env) (hmono : ∀ n, env.time n ≤ env.time (n + 1))
    (c : String) (jobs : List JobSpec) (clk : Nat) :
    ∀ p ∈ (execute env c jobs clk).1, 0 ≤ p.2 := by
  induction jobs generalizing clk with
  | nil => intro p hp; simp [execute] at hp
  | cons j rest ih =>
    intro p hp
    simp only [execute, List.mem_cons] at hp
    rcases hp with hp | hp
    · subst hp
      simpa using sub_nonneg.mpr (hmono clk)
    · exact ih (clk + 2) p hp

theorem runLoop_ok (env : Env) (cfg : Config) (cs : List String) (clk clk' : Nat)
    (ds : Dataset) (tr : List Event)
    (h : runLoop env cfg cs clk = (.ok ds, tr, clk')) :
    ds.map Prod.fst = cs ∧
      (∀ e ∈ ds, e.2.map Prod.fst = cfg.jobs.map JobSpec.name) ∧
      tr = scheduleTrace env cfg cs clk := by
  induction cs generalizing clk clk' ds tr with
  | nil =>
    simp only [runLoop, Prod.mk.injEq] at h
    obtain ⟨h1, h2, -⟩ := h
    cases h1
    subst h2
    simp [scheduleTrace]
  | cons c rest ih =>
    by_cases h1 : env.cleanFails c
    · simp [runLoop, handle_commit, h1] at h
    · by_cases h2 : env.checkoutFails c
      · simp [runLoop, handle_commit, h1, h2] at h
      · rw [runLoop, handle_commit, if_neg h1, if_neg h2] at h
        dsimp only at h
        rcases h3 : runLoop env cfg rest (execute env c cfg.jobs clk).2.2 with ⟨r, tr0, k0⟩
        rw [h3] at h
        cases r with
        | error e => simp at h
        | ok ds0 =>
          simp only [Prod.mk.injEq] at h
          obtain ⟨hds, htr, -⟩ := h
          cases hds
          subst htr
          rw [execute_clk] at h3
          obtain ⟨ih1, ih2, ih3⟩ := ih _ _ _ _ h3
          refine ⟨by simp [ih1], ?_, ?_⟩
          · intro e he
            rcases List.mem_cons.mp he with he | he
            · subst he
              exact execute_stats_names env c cfg.jobs clk
            · exact ih2 e he
          · simp [scheduleTrace, commitTrace, ih3, execute_trace]

theorem runLoop_checkout_failure (env : Env) (cfg : Config) (pre : List String)
    (c : String) (post : List String) (clk : Nat)
    (hpre : ∀ x ∈ pre, env.cleanFails x = false ∧ env.checkoutFails x = false)
    (hc1 : env.cleanFails c = false) (hc2 : env.checkoutFails c = true) :
    (runLoop env cfg (pre ++ c :: post) clk).1 = .error (.checkoutFailed c) := by
  induction pre generalizing clk with
  | nil => simp [runLoop, handle_commit, hc1, hc2]
  | cons p ps ih =>
    obtain ⟨hp1, hp2⟩ := hpre p (List.mem_cons_self p ps)
    rw [List.cons_append, runLoop, handle_commit, if_neg (by simp [hp1]),
      if_neg (by simp [hp2])]
    have ih' := ih ((execute env p cfg.jobs clk).2.2)
      (fun x hx => hpre x (List.mem_cons_of_mem p hx))
    rcases h3 : runLoop env cfg (ps ++ c :: post) (execute env p cfg.jobs clk).2.2
      with ⟨r, tr0, k0⟩
    rw [h3] at ih'
    cases r with
    | error e => simp_all
    | ok ds0 => simp at ih'

theorem resolveCommits_ne_nil (env : Env) (explicit : List String)
    (h : explicit ≠ []) : resolveCommits env explicit = explicit := by
  cases explicit with
  | nil => exact absurd rfl h
  | cons a l => rfl

theorem run_ok (env : Env) (cfg : Config) (explicit : List String)
    (ds : Dataset) (tr : List Event)
    (h : run env cfg explicit = (.ok ds, tr)) :
    ds.map Prod.fst = resolveCommits env explicit ∧
      (∀ e ∈ ds, e.2.map Prod.fst = cfg.jobs.map JobSpec.name) ∧
      tr = Event.clone :: scheduleTrace env cfg (resolveCommits env explicit) 0 := by
  rw [run] at h
  by_cases hc : env.cloneFails
  · rw [if_pos hc] at h
    simp at h
  · rw [if_neg hc] at h
    rcases h3 : runLoop env cfg (resolveCommits env explicit) 0 with ⟨r, tr0, k0⟩
    rw [h3] at h
    simp only [Prod.mk.injEq] at h
    obtain ⟨hr, htr⟩ := h
    subst hr
    obtain ⟨a, b, c⟩ := runLoop_ok env cfg _ 0 k0 ds tr0 h3
    exact ⟨a, b, by rw [← htr, c]⟩

/-! Claim theorems. -/

/-- C1: for every run that completes without any failure, the dataset
returned by `run` has exactly one entry per resolved commit, in the resolved
order, and each entry's job-result list has exactly one entry per configured
job, named in `Config.jobs` order. -/
theorem run_dataset_shape (env : Env) (cfg : Config) (explicit : List String)
    (ds : Dataset) (tr : List Event)
    (h : run env cfg explicit = (.ok ds, tr)) :
    ds.map Prod.fst = resolveCommits env explicit ∧
      ∀ e ∈ ds, e.2.map Prod.fst = cfg.jobs.map JobSpec.name := by
  obtain ⟨a, b, -⟩ := run_ok env cfg explicit ds tr h
  exact ⟨a, b⟩

theorem run_dataset_shape_witness :
    ([("c1", [("j1", (0 : ℚ))])] : Dataset).map Prod.fst = resolveCommits env0 ["c1"] ∧
      ∀ e ∈ ([("c1", [("j1", (0 : ℚ))])] : Dataset),
        e.2.map Prod.fst = cfg0.jobs.map JobSpec.name :=
  run_dataset_shape env0 cfg0 ["c1"] [("c1", [("j1", 0)])]
    [.clone, .clean "c1", .checkout "c1", .build "c1" 0, .job "c1" "j1" 0 0 1]
    (by simp [run, runLoop, handle_commit, execute, resolveCommits, list_commits, env0, cfg0])

/-- C2: a non-empty explicit commit list is processed verbatim, in order;
with no explicit list the commits processed are the full revision set
reported by `git rev-list --all`. -/
theorem run_commit_selection (env : Env) (cfg : Config) (explicit : List String)
    (ds : Dataset) (tr : List Event)
    (h : run env cfg explicit = (.ok ds, tr)) :
    (explicit ≠ [] → ds.map Prod.fst = explicit) ∧
      (explicit = [] → ds.map Prod.fst = list_commits env) := by
  obtain ⟨a, -, -⟩ := run_ok env cfg explicit ds tr h
  constructor
  · intro hne
    rw [a, resolveCommits_ne_nil env explicit hne]
  · intro he
    subst he
    exact a

theorem run_commit_selection_witness :
    ((["c1"] : List String) ≠ [] →
        ([("c1", [("j1", (0 : ℚ))])] : Dataset).map Prod.fst = ["c1"]) ∧
      ((["c1"] : List String) = [] →
        ([("c1", [("j1", (0 : ℚ))])] : Dataset).map Prod.fst = list_commits env0) :=
  run_commit_selection env0 cfg0 ["c1"] [("c1", [("j1", 0)])]
    [.clone, .clean "c1", .checkout "c1", .build "c1" 0, .job "c1" "j1" 0 0 1]
    (by simp [run, runLoop, handle_commit, execute, resolveCommits, list_commits, env0, cfg0])

/-- C4: in every failure-free run the event trace is exactly clone followed
by, for each resolved commit in order, the block clean, checkout, build,
then that commit's jobs in `Config.jobs` order on strictly later clock
readings than every earlier job; so each commit's clean and checkout-and-
build steps complete before any of its jobs runs, and no two commits'
timings interleave. -/
theorem run_strict_sequencing (env : Env) (cfg : Config) (explicit : List String)
    (ds : Dataset) (tr : List Event)
    (h : run env cfg explicit = (.ok ds, tr)) :
    tr = Event.clone :: scheduleTrace env cfg (resolveCommits env explicit) 0 ∧
      ds.map Prod.fst = resolveCommits env explicit ∧
      ∀ e ∈ ds, e.2.map Prod.fst = cfg.jobs.map JobSpec.name := by
  obtain ⟨a, b, c⟩ := run_ok env cfg explicit ds tr h
  exact ⟨c, a, b⟩

theorem run_strict_sequencing_witness :
    ([Event.clone, .clean "c1", .checkout "c1", .build "c1" 0, .job "c1" "j1" 0 0 1]
        : List Event) =
        Event.clone :: scheduleTrace env0 cfg0 (resolveCommits env0 ["c1"]) 0 ∧
      ([("c1", [("j1", (0 : ℚ))])] : Dataset).map Prod.fst = resolveCommits env0 ["c1"] ∧
      ∀ e ∈ ([("c1", [("j1", (0 : ℚ))])] : Dataset),
        e.2.map Prod.fst = cfg0.jobs.map JobSpec.name :=
  run_strict_sequencing env0 cfg0 ["c1"] [("c1", [("j1", 0)])]
    [.clone, .clean "c1", .checkout "c1", .build "c1" 0, .job "c1" "j1" 0 0 1]
    (by simp [run, runLoop, handle_commit, execute, resolveCommits, list_commits, env0, cfg0])

/-- C3 counterexample: with the init script exiting 1 (a failed build), the
commit's job is still executed (its event is in the trace) and still timed
(a job result is recorded), so a build failure does not abort the commit's
job execution. -/
theorem build_failure_ignored_cex :
    env1.initExitCode "c1" = 1 ∧
      (run env1 cfg0 ["c1"]).1 = .ok [("c1", [("j1", (0 : ℚ))])] ∧
      Event.job "c1" "j1" 1 0 1 ∈ (run env1 cfg0 ["c1"]).2 := by
  refine ⟨rfl, ?_, ?_⟩ <;>
    simp [run, runLoop, handle_commit, execute, resolveCommits, list_commits,
      env1, env0, cfg0]

/-- C3 amended: a failure of the checkout phase of `switch_to_commit`
(`git checkout <commit>` raising) does abort the commit before any job
runs, but a failure of the init/build script does not: its exit code is
never inspected, and the jobs are executed and timed regardless of it. -/
theorem checkout_aborts_jobs_but_build_failure_does_not (env : Env) (cfg : Config)
    (c : String) (clk : Nat) (hclean : env.cleanFails c = false) :
    (env.checkoutFails c = true →
        handle_commit env cfg c clk = (.error (.checkoutFailed c), [Event.clean c], clk)) ∧
      (env.checkoutFails c = false →
        (handle_commit env cfg c clk).1 = .ok ((execute env c cfg.jobs clk).1) ∧
          ((execute env c cfg.jobs clk).1).map Prod.fst = cfg.jobs.map JobSpec.name) := by
  constructor
  · intro h2
    simp [handle_commit, hclean, h2]
  · intro h2
    exact ⟨by simp [handle_commit, hclean, h2], execute_stats_names env c cfg.jobs clk⟩

theorem checkout_aborts_jobs_witness :
    env1.cleanFails "c1" = false ∧
      ((env1.checkoutFails "c1" = true →
          handle_commit env1 cfg0 "c1" 0 =
            (.error (.checkoutFailed "c1"), [Event.clean "c1"], 0)) ∧
        (env1.checkoutFails "c1" = false →
          (handle_commit env1 cfg0 "c1" 0).1 = .ok ((execute env1 "c1" cfg0.jobs 0).1) ∧
            ((execute env1 "c1" cfg0.jobs 0).1).map Prod.fst = cfg0.jobs.map JobSpec.name)) :=
  ⟨rfl, checkout_aborts_jobs_but_build_failure_does_not env1 cfg0 "c1" 0 rfl⟩

/-- C5 counterexample: with `git checkout c2` failing in a three-commit run,
the exception propagates out of `run` and the accumulated stats are
discarded: the result is the checkout error, not a two-entry dataset for c1
and c3. -/
theorem skip_and_continue_cex :
    (run env2 cfg0 ["c1", "c2", "c3"]).1 = .error (.checkoutFailed "c2") ∧
      (run env2 cfg0 ["c1", "c2", "c3"]).1 ≠
        .ok [("c1", [("j1", (0 : ℚ))]), ("c3", [("j1", (0 : ℚ))])] := by
  have h : (run env2 cfg0 ["c1", "c2", "c3"]).1 = .error (.checkoutFailed "c2") := by
    simp [run, runLoop, handle_commit, execute, resolveCommits, list_commits,
      env2, env0, cfg0]
  exact ⟨h, by rw [h]; intro hcon; cases hcon⟩

/-- C5 amended: there is no skip-and-continue policy: when `git checkout`
fails for a commit (all earlier commits succeeding), the whole run aborts
with an error naming that commit, and the dataset accumulated for the
earlier commits is discarded rather than returned. -/
theorem checkout_failure_aborts_whole_run (env : Env) (cfg : Config)
    (pre : List String) (c : String) (post : List String)
    (hclone : env.cloneFails = false)
    (hpre : ∀ x ∈ pre, env.cleanFails x = false ∧ env.checkoutFails x = false)
    (hc1 : env.cleanFails c = false) (hc2 : env.checkoutFails c = true) :
    (run env cfg (pre ++ c :: post)).1 = .error (.checkoutFailed c) := by
  rw [run, if_neg (by simp [hclone])]
  have hres : resolveCommits env (pre ++ c :: post) = pre ++ c :: post := by
    cases pre <;> simp [resolveCommits]
  rw [hres]
  exact runLoop_checkout_failure env cfg pre c post 0 hpre hc1 hc2

theorem checkout_failure_aborts_whole_run_witness :
    env2.cloneFails = false ∧ env2.cleanFails "c2" = false ∧
      env2.checkoutFails "c2" = true ∧
      (run env2 cfg0 (["c1"] ++ "c2" :: ["c3"])).1 = .error (.checkoutFailed "c2") :=
  ⟨rfl, rfl, by decide,
    checkout_failure_aborts_whole_run env2 cfg0 ["c1"] "c2" ["c3"] rfl
      (by intro x hx; simp at hx; subst hx; exact ⟨rfl, by decide⟩) rfl (by decide)⟩

/-- C6: `execute` never inspects a job's exit code: the stats do not depend
on any of the oracle's exit codes (only on the clock), every configured job
gets exactly one recorded result in order, and no job ever aborts the rest
(`execute` is total and error-free by its type). -/
theorem execute_records_every_job (env env' : Env) (c : String) (jobs : List JobSpec)
    (clk : Nat) (ht : env.time = env'.time) :
    ((execute env c jobs clk).1).map Prod.fst = jobs.map JobSpec.name ∧
      (execute env c jobs clk).1 = (execute env' c jobs clk).1 :=
  ⟨execute_stats_names env c jobs clk, execute_stats_ignore_env env env' c jobs clk ht⟩

theorem execute_records_every_job_witness :
    ((execute env0 "c1" cfg0.jobs 0).1).map Prod.fst = cfg0.jobs.map JobSpec.name ∧
      (execute env0 "c1" cfg0.jobs 0).1 = (execute env1 "c1" cfg0.jobs 0).1 :=
  execute_records_every_job env0 env1 "c1" cfg0.jobs 0 rfl

/-- C7: when the configured working directory already exists at startup,
`os.makedirs` in `Repository.__init__` raises before anything else happens:
the result is a CloneFailed-class error, the event trace is empty (no commit
is cleaned, checked out, built, or timed), and no dataset entry exists. -/
theorem existing_workdir_fails_before_any_commit (env : Env) (cfg : Config)
    (explicit : List String) (h : env.dirExists = true) :
    repositoryMain env cfg explicit = (.error .workingDirExists, []) ∧
      RunError.isCloneClass .workingDirExists = true :=
  ⟨by simp [repositoryMain, h], rfl⟩

theorem existing_workdir_fails_witness :
    repositoryMain env3 cfg0 [] = (.error .workingDirExists, []) ∧
      RunError.isCloneClass .workingDirExists = true :=
  existing_workdir_fails_before_any_commit env3 cfg0 [] rfl

/-- C8: `clean()` is idempotent on the spec-modelled working tree: cleaning
twice equals cleaning once, and cleaning an already-clean tree is a no-op. -/
theorem clean_idempotent (t : WorkingTree) :
    clean (clean t) = clean t ∧ (t.isClean → clean t = t) := by
  refine ⟨rfl, fun h => ?_⟩
  cases t with
  | mk hf tf uf =>
    simp only [WorkingTree.isClean] at h
    simp [clean, h]

/-- A concrete already-clean tree for the `clean()` claims. -/
def tree0 : WorkingTree :=
  { headFiles := [("a", "x")], trackedFiles := [("a", "x")], untrackedFiles := [] }

theorem clean_idempotent_witness :
    clean (clean tree0) = clean tree0 ∧ (tree0.isClean ∧ clean tree0 = tree0) :=
  ⟨(clean_idempotent tree0).1, rfl, (clean_idempotent tree0).2 rfl⟩

/-- C9: every duration recorded by `execute` is non-negative, provided the
successive clock readings are non-decreasing. -/
theorem durations_nonneg (env : Env) (hmono : ∀ n, env.time n ≤ env.time (n + 1))
    (c : String) (jobs : List JobSpec) (clk : Nat) :
    ∀ p ∈ (execute env c jobs clk).1, 0 ≤ p.2 :=
  execute_dur_nonneg env hmono c jobs clk

theorem durations_nonneg_witness :
    ("j1", (0 : ℚ)) ∈ (execute env0 "c1" cfg0.jobs 0).1 ∧
      (0 : ℚ) ≤ (("j1", (0 : ℚ)) : String × ℚ).2 :=
  ⟨by simp [execute, env0, cfg0],
    durations_nonneg env0 (fun n => le_refl 0) "c1" cfg0.jobs 0 ("j1", 0)
      (by simp [execute, env0, cfg0])⟩

/-- C10: the plotted rows are keyed by only the first five characters of
each commit id: two datasets that agree after truncating every commit id to
five characters plot identically, so distinct commits sharing a
five-character prefix are indistinguishable in the plotted data, while the
dataset produced by `run` itself retains the full resolved commit ids. -/
theorem plot_truncates_commit_keys :
    (∀ data1 data2 : Dataset,
        data1.map (fun e => (e.1.take 5, e.2)) = data2.map (fun e => (e.1.take 5, e.2)) →
          plot_transform data1 = plot_transform data2) ∧
      (∀ (env : Env) (cfg : Config) (explicit : List String) (ds : Dataset)
          (tr : List Event),
        run env cfg explicit = (.ok ds, tr) →
          ds.map Prod.fst = resolveCommits env explicit) := by
  constructor
  · intro data1
    induction data1 with
    | nil =>
      intro data2 h
      cases data2 with
      | nil => rfl
      | cons e2 rest2 => simp at h
    | cons e rest ih =>
      intro data2 h
      cases data2 with
      | nil => simp at h
      | cons e2 rest2 =>
        rcases e with ⟨c1, jobs1⟩
        rcases e2 with ⟨c2, jobs2⟩
        simp only [List.map_cons, List.cons.injEq, Prod.mk.injEq] at h
        obtain ⟨⟨h1, h2⟩, h3⟩ := h
        subst h2
        simp [plot_transform, h1, ih rest2 h3]
  · intro env cfg explicit ds tr h
    exact (run_ok env cfg explicit ds tr h).1

theorem plot_truncates_commit_keys_witness :
    plot_transform [("abcde1", [("j1", (0 : ℚ))])] =
        plot_transform [("abcde2", [("j1", (0 : ℚ))])] ∧
      ([("c1", [("j1", (0 : ℚ))])] : Dataset).map Prod.fst = resolveCommits env0 ["c1"] :=
  ⟨plot_truncates_commit_keys.1 [("abcde1", [("j1", 0)])] [("abcde2", [("j1", 0)])]
      (by simp; decide),
    plot_truncates_commit_keys.2 env0 cfg0 ["c1"] [("c1", [("j1", 0)])]
      [.clone, .clean "c1", .checkout "c1", .build "c1" 0, .job "c1" "j1" 0 0 1]
      (by simp [run, runLoop, handle_commit, execute, resolveCommits, list_commits,
        env0, cfg0])⟩

end GitHistoryProfiler
